import Mathlib

/-!
Verification of the vTeam claude-code-runner session core
(`components/runners/claude-code-runner/main.py`).

The development shallowly embeds the streaming-message aggregation loop of
`_run_claude_code`, the final-result selection, the status reporting of
`update_session_status`, and the lifecycle of `run_agentic_session` /
`_handle_standard_session`.  Python strings are modelled as Lean `String`
(a list of characters), `str.strip()` as `pyStrip`, `"".join` as `pyJoin`.
Network and inference effects are modelled by explicit inputs: the inference
stream is a list of events (each a list of content blocks) plus an optional
error raised by the engine after the listed events, and an HTTP status call
outcome is a response or a raised exception.
-/

/-- Model of Python `str.strip()`: drop whitespace from both ends. -/
def pyStrip (s : String) : String :=
  ⟨((s.data.dropWhile Char.isWhitespace).reverse.dropWhile Char.isWhitespace).reverse⟩

/-- Model of Python `"".join(l)`: concatenation of the pieces. -/
def pyJoin (l : List String) : String :=
  ⟨(l.map String.data).flatten⟩

/-- A content block of one streamed inference message, as inspected by
`_run_claude_code` (main.py lines 352-443): a text block (`hasattr 'text'`),
a tool-use block (`id`/`name`/`input`), or a tool-result block
(`tool_use_id`/`content`/`is_error`).  The textual content of a tool result
is modelled after the code has folded list/str content into one string. -/
inductive Block where
  | text (t : String)
  | toolUse (id name input : String)
  | toolResult (toolUseId content : String) (isError : Bool)
deriving DecidableEq, Repr

/-- An entry of `all_messages` (main.py).  The four dict shapes produced by
the loop: `{"content": text.strip()}`, `{"tool_use_id", "tool_use_name",
"tool_use_input"}` (unfilled tool use), the same dict after the in-place
update that adds `"content"` and `"tool_use_is_error"`, and the standalone
tool-result dict `{"content", "tool_use_id", "tool_use_is_error"}`. -/
inductive Msg where
  | text (content : String)
  | toolUse (id name input : String)
  | toolUseFilled (id name input content : String) (isError : Bool)
  | standaloneResult (toolUseId content : String) (isError : Bool)
deriving DecidableEq, Repr

/-- The condition of main.py line 420-424: the dict has
`tool_use_id == x` and no `"content"` key.  Only an unfilled tool-use
message satisfies it (text and standalone-result messages carry
`"content"`; a filled tool use does too). -/
def isUnfilledFor (x : String) : Msg → Bool
  | Msg.toolUse id _ _ => id == x
  | _ => false

/-- Truncation marker appended by main.py line 408. -/
def truncMarker : String := "\n\n[Content truncated - full content available in logs]"

/-- Content truncation of main.py lines 404-409: content longer than 5000
characters is cut to its first 5000 characters and the marker is appended. -/
def truncateContent (c : String) : String :=
  if 5000 < c.length then String.mk (c.data.take 5000) ++ truncMarker else c

/-- The `for i, existing_msg in enumerate(reversed(all_messages))` search of
main.py lines 416-432: scan from the most recent message backwards for the
first dict with matching `tool_use_id` and no `"content"` key, and update
that dict in place with the result content and error flag.  `none` models
the loop's `else:` branch (no match found). -/
def fillLast (x c : String) (e : Bool) : List Msg → Option (List Msg)
  | [] => none
  | m :: rest =>
    match fillLast x c e rest with
    | some rest2 => some (m :: rest2)
    | none =>
      match m with
      | Msg.toolUse id n i =>
        if id = x then some (Msg.toolUseFilled id n i c e :: rest) else none
      | _ => none

/-- Mutable loop state of `_run_claude_code`: `response_text` and
`all_messages`. -/
structure AggState where
  responseText : List String
  allMessages : List Msg
deriving DecidableEq, Repr

/-- Processing of one content block (main.py lines 352-443):
a text block is appended to `response_text` and, when its stripped text is
non-empty, recorded as `{"content": text.strip()}`; a tool-use block is
recorded unfilled; a tool-result block is truncated and either unified into
the most recent unfilled matching tool-use message or appended standalone. -/
def processBlock (st : AggState) (b : Block) : AggState :=
  match b with
  | Block.text t =>
    let st2 : AggState := ⟨st.responseText ++ [t], st.allMessages⟩
    if pyStrip t = "" then st2
    else ⟨st2.responseText, st2.allMessages ++ [Msg.text (pyStrip t)]⟩
  | Block.toolUse id n i =>
    ⟨st.responseText, st.allMessages ++ [Msg.toolUse id n i]⟩
  | Block.toolResult x c e =>
    match fillLast x (truncateContent c) e st.allMessages with
    | some msgs => ⟨st.responseText, msgs⟩
    | none =>
      ⟨st.responseText, st.allMessages ++ [Msg.standaloneResult x (truncateContent c) e]⟩

/-- Processing of one streamed message's content (the inner
`for block in message.content` loop). -/
def processEvent (st : AggState) (blocks : List Block) : AggState :=
  blocks.foldl processBlock st

/-- A status payload sent to `update_session_status`; only the fields the
claims are about are kept. -/
structure StatusReport where
  phase : String
  message : String
  completionTime : Option String
  finalOutput : Option String
  messages : Option (List Msg)
deriving DecidableEq, Repr

/-- The per-message progress report of main.py lines 447-453. -/
def runningReport (msgs : List Msg) : StatusReport :=
  ⟨"Running", "Processing... (" ++ toString msgs.length ++ " messages received)",
    none, none, some msgs⟩

/-- The `async for message in client.receive_response()` loop of main.py
lines 341-466: each event's blocks are processed in order, and after a
message with non-empty content a `Running` status report is sent with the
current `all_messages`.  Returns the final state and the reports sent. -/
def consumeStream (st : AggState) (reps : List StatusReport) :
    List (List Block) → AggState × List StatusReport
  | [] => (st, reps)
  | ev :: rest =>
    let st2 := processEvent st ev
    let reps2 := if ev.isEmpty then reps else reps ++ [runningReport st2.allMessages]
    consumeStream st2 reps2 rest

/-- The whole aggregation of a stream from the empty state. -/
def processStream (evs : List (List Block)) : AggState :=
  (consumeStream ⟨[], []⟩ [] evs).1

/-- The scan of main.py lines 470-475: `for text in reversed(response_text):
if text.strip(): result = text.strip(); break` — the stripped text of the
last entry whose stripped text is non-empty, if any. -/
def findLastNonEmpty : List String → Option String
  | [] => none
  | t :: rest =>
    match findLastNonEmpty rest with
    | some r => some r
    | none => if pyStrip t = "" then none else some (pyStrip t)

/-- Final-result selection of main.py lines 468-482: the last non-empty
stripped text, else the stripped join of all texts, and a
`RuntimeError("Claude Code SDK returned empty result")` when that is still
empty. -/
def computeResult (rt : List String) : Except String String :=
  let result :=
    match findLastNonEmpty rt with
    | some r => r
    | none => pyStrip (pyJoin rt)
  if result = "" then Except.error "Claude Code SDK returned empty result"
  else Except.ok result

/-- An inference stream as consumed by `_run_claude_code`: the events the
engine emitted, and `streamError = some e` when the engine raised an
exception with message `e` after emitting them. -/
structure InferenceStream where
  events : List (List Block)
  streamError : Option String
deriving DecidableEq, Repr

/-- `_run_claude_code` (main.py lines 307-491): consume the stream, then
either propagate the engine's exception or select the final result.
Returns the status reports sent during the loop and the outcome
(`Except.error` models a raised exception). -/
def runClaudeCode (s : InferenceStream) :
    List StatusReport × Except String (String × List Msg) :=
  let p := consumeStream ⟨[], []⟩ [] s.events
  match s.streamError with
  | some e => (p.2, Except.error e)
  | none =>
    match computeResult p.1.responseText with
    | Except.error e => (p.2, Except.error e)
    | Except.ok r => (p.2, Except.ok (r, p.1.allMessages))

/-- The initial status report of `_handle_standard_session`
(main.py lines 585-591). -/
def initializingReport : StatusReport :=
  ⟨"Running", "Initializing Claude Code with Playwright MCP browser capabilities",
    none, none, none⟩

/-- The second status report of `_handle_standard_session`
(main.py lines 597-603); the analysed URL is abstracted away. -/
def analyzingReport : StatusReport :=
  ⟨"Running", "Claude Code analyzing website with agentic browser automation",
    none, none, none⟩

/-- The terminal report of `_handle_standard_session`
(main.py lines 622-631). -/
def completedReport (result : String) (msgs : List Msg) (now : String) : StatusReport :=
  ⟨"Completed", "Agentic analysis completed successfully using Claude Code + Playwright MCP",
    some now, some result, some msgs⟩

/-- `_handle_standard_session` (main.py lines 582-633): two `Running`
reports, the inference run, then the `Completed` report; an exception from
the run propagates (`some e`) with the reports already sent. -/
def handleStandardSession (s : InferenceStream) (now : String) :
    List StatusReport × Option String :=
  let pre := [initializingReport, analyzingReport]
  match runClaudeCode s with
  | (reps, Except.error e) => (pre ++ reps, some e)
  | (reps, Except.ok (r, msgs)) => (pre ++ reps ++ [completedReport r msgs now], none)

/-- The `Failed` report of `run_agentic_session`'s exception handler
(main.py lines 162-174). -/
def failedReport (e now : String) : StatusReport :=
  ⟨"Failed", "Agentic analysis failed: " ++ e, some now, none, none⟩

/-- `run_agentic_session` (main.py lines 132-174), standard-session path:
the pre-steps (`_verify_browser_setup`, `_setup_git_integration`,
`_generate_and_set_display_name`) swallow their own exceptions and are
no-ops here; an exception escaping `_handle_standard_session` is caught,
a `Failed` report is sent and the process exits with code 1.
Returns the reports sent in order and the exit code (`none`: normal return). -/
def run_agentic_session (s : InferenceStream) (now : String) :
    List StatusReport × Option Nat :=
  match handleStandardSession s now with
  | (reps, none) => (reps, none)
  | (reps, some e) => (reps ++ [failedReport e now], some 1)

/-- Outcome of the `requests.put` in `update_session_status`: an HTTP
response with a status code and body, or a raised exception (transport
error, timeout). -/
inductive HttpOutcome where
  | response (status : Nat) (body : String)
  | raised (msg : String)
deriving DecidableEq, Repr

/-- A log line: whether it was logged at error level, and its text. -/
structure LogEntry where
  isError : Bool
  text : String
deriving DecidableEq, Repr

/-- The `try` body of `update_session_status` (main.py lines 750-766):
the PUT may raise (`Except.error`), a non-200 response is logged as an
error, a 200 response as success. -/
def updateStatusTry (o : HttpOutcome) : Except String LogEntry :=
  match o with
  | HttpOutcome.raised m => Except.error m
  | HttpOutcome.response code body =>
    if code = 200 then Except.ok ⟨false, "Session status updated successfully"⟩
    else Except.ok ⟨true, "Failed to update session status: " ++ toString code ++ " - " ++ body⟩

/-- `update_session_status` (main.py lines 748-770): the blanket
`except Exception` catches anything the body raised and logs it; the
function always returns normally. -/
def update_session_status (o : HttpOutcome) : LogEntry :=
  match updateStatusTry o with
  | Except.ok l => l
  | Except.error m => ⟨true, "Error updating session status: " ++ m⟩

/-- Modelled from the spec: a local file as seen by the Workspace
Synchronizer push (spec section 4.2); no Workspace Synchronizer
implementation exists under src, only this spec text.  `utf8Encodable`
models whether the UTF-8 text write path is applicable to the file's
bytes. -/
structure LocalFile where
  path : String
  utf8Encodable : Bool
deriving DecidableEq, Repr

/-- Modelled from the spec: pushing one file (spec section 4.2) — a UTF-8
text write is attempted first, with a base64-encoded write as fallback; a
failure on both paths is logged and the file is skipped.  `utf8W`/`b64W`
give each write attempt's transport outcome. -/
def pushFile (utf8W b64W : String → Bool) (f : LocalFile) : Bool :=
  if f.utf8Encodable && utf8W f.path then true else b64W f.path

/-- Modelled from the spec: the per-file loop of the push (spec section
4.2) — every regular file is attempted in order; a file whose writes fail
is skipped and the traversal continues.  Returns, per file, its path and
whether it was pushed. -/
def pushFiles (utf8W b64W : String → Bool) : List LocalFile → List (String × Bool)
  | [] => []
  | f :: rest => (f.path, pushFile utf8W b64W f) :: pushFiles utf8W b64W rest

/-- Modelled from the spec: the workspace push (sync-out, spec section
4.2) — a no-op when the remote workspace path is unset, otherwise the
per-file traversal. -/
def pushWorkspace (remote : Option String) (utf8W b64W : String → Bool)
    (files : List LocalFile) : List (String × Bool) :=
  match remote with
  | none => []
  | some _ => pushFiles utf8W b64W files

/-- The text payload of a block, when it is a text block. -/
def textOf : Block → Option String
  | Block.text t => some t
  | _ => none

/-- All text payloads of a stream's events, in order. -/
def textsOf : List (List Block) → List String
  | [] => []
  | ev :: rest => ev.filterMap textOf ++ textsOf rest

/-- Bool form of "the stripped text is non-empty" (Python truthiness of
`text.strip()`). -/
def hasContent (t : String) : Bool := !(pyStrip t == "")

theorem hasContent_iff (t : String) : hasContent t = true ↔ pyStrip t ≠ "" := by
  simp [hasContent]

/-- Characterization of the most-recent-first search: either no message
matches and nothing is filled, or the log splits around the most recent
unfilled matching tool use, which gets filled in place. -/
theorem fillLast_char (x c : String) (e : Bool) (msgs : List Msg) :
    (fillLast x c e msgs = none ∧ ∀ m ∈ msgs, isUnfilledFor x m = false) ∨
    (∃ l1 n i l2, msgs = l1 ++ Msg.toolUse x n i :: l2 ∧
      (∀ m ∈ l2, isUnfilledFor x m = false) ∧
      fillLast x c e msgs = some (l1 ++ Msg.toolUseFilled x n i c e :: l2)) := by
  induction msgs with
  | nil => exact Or.inl ⟨rfl, by simp⟩
  | cons m rest ih =>
    rcases ih with ⟨hnone, hall⟩ | ⟨l1, n, i, l2, heq, hl2, hsome⟩
    · cases m with
      | toolUse id nm inp =>
        by_cases hid : id = x
        · subst hid
          refine Or.inr ⟨[], nm, inp, rest, by simp, hall, ?_⟩
          simp [fillLast, hnone]
        · refine Or.inl ⟨?_, ?_⟩
          · simp [fillLast, hnone, hid]
          · intro mm hm
            rcases List.mem_cons.mp hm with rfl | hm2
            · simp [isUnfilledFor, hid]
            · exact hall mm hm2
      | text t =>
        refine Or.inl ⟨by simp [fillLast, hnone], ?_⟩
        intro mm hm
        rcases List.mem_cons.mp hm with rfl | hm2
        · simp [isUnfilledFor]
        · exact hall mm hm2
      | toolUseFilled id nm inp ct er =>
        refine Or.inl ⟨by simp [fillLast, hnone], ?_⟩
        intro mm hm
        rcases List.mem_cons.mp hm with rfl | hm2
        · simp [isUnfilledFor]
        · exact hall mm hm2
      | standaloneResult tid ct er =>
        refine Or.inl ⟨by simp [fillLast, hnone], ?_⟩
        intro mm hm
        rcases List.mem_cons.mp hm with rfl | hm2
        · simp [isUnfilledFor]
        · exact hall mm hm2
    · refine Or.inr ⟨m :: l1, n, i, l2, by simp [heq], hl2, ?_⟩
      simp [fillLast, hsome]

/-- C3: for a tool-result event whose id matches a still-unfilled tool-use
message (searched most-recent-first, first match wins), no standalone
result message is appended: the log keeps its length and the matched
tool-use message is replaced in place with its filled version carrying the
result content and error flag. -/
theorem c3_tool_result_unification (st : AggState) (x c : String) (e : Bool)
    (h : ∃ m ∈ st.allMessages, isUnfilledFor x m = true) :
    ∃ l1 n i l2,
      st.allMessages = l1 ++ Msg.toolUse x n i :: l2 ∧
      (∀ m ∈ l2, isUnfilledFor x m = false) ∧
      (processBlock st (Block.toolResult x c e)).allMessages
        = l1 ++ Msg.toolUseFilled x n i (truncateContent c) e :: l2 ∧
      (processBlock st (Block.toolResult x c e)).allMessages.length
        = st.allMessages.length := by
  rcases fillLast_char x (truncateContent c) e st.allMessages with
    ⟨_, hall⟩ | ⟨l1, n, i, l2, heq, hl2, hsome⟩
  · rcases h with ⟨m, hm, hu⟩
    rw [hall m hm] at hu
    cases hu
  · have h2 : (processBlock st (Block.toolResult x c e)).allMessages
        = l1 ++ Msg.toolUseFilled x n i (truncateContent c) e :: l2 := by
      simp [processBlock, hsome]
    refine ⟨l1, n, i, l2, heq, hl2, h2, ?_⟩
    rw [h2, heq]
    simp

/-- Witness for C3: one unfilled tool use `t1`, then its result. -/
theorem c3_witness :
    ∃ l1 n i l2,
      (AggState.mk [] [Msg.toolUse "t1" "grep" "q"]).allMessages
        = l1 ++ Msg.toolUse "t1" n i :: l2 ∧
      (∀ m ∈ l2, isUnfilledFor "t1" m = false) ∧
      (processBlock (AggState.mk [] [Msg.toolUse "t1" "grep" "q"])
          (Block.toolResult "t1" "3 matches" false)).allMessages
        = l1 ++ Msg.toolUseFilled "t1" n i (truncateContent "3 matches") false :: l2 ∧
      (processBlock (AggState.mk [] [Msg.toolUse "t1" "grep" "q"])
          (Block.toolResult "t1" "3 matches" false)).allMessages.length
        = (AggState.mk [] [Msg.toolUse "t1" "grep" "q"]).allMessages.length :=
  c3_tool_result_unification (AggState.mk [] [Msg.toolUse "t1" "grep" "q"])
    "t1" "3 matches" false ⟨Msg.toolUse "t1" "grep" "q", by decide, by decide⟩

/-- C7: a tool-result event matching no unfilled tool-use message is
appended as a standalone message; the log grows by exactly one. -/
theorem c7_standalone_result (st : AggState) (x c : String) (e : Bool)
    (h : ∀ m ∈ st.allMessages, isUnfilledFor x m = false) :
    (processBlock st (Block.toolResult x c e)).allMessages
      = st.allMessages ++ [Msg.standaloneResult x (truncateContent c) e] ∧
    (processBlock st (Block.toolResult x c e)).allMessages.length
      = st.allMessages.length + 1 := by
  rcases fillLast_char x (truncateContent c) e st.allMessages with
    ⟨hnone, _⟩ | ⟨l1, n, i, l2, heq, _, _⟩
  · constructor
    · simp [processBlock, hnone]
    · simp [processBlock, hnone]
  · exfalso
    have hmem : Msg.toolUse x n i ∈ st.allMessages := by
      rw [heq]; exact List.mem_append.mpr (Or.inr (List.mem_cons_self _ _))
    have := h _ hmem
    simp [isUnfilledFor] at this

/-- Witness for C7: a result with no matching tool use becomes standalone. -/
theorem c7_witness :
    (processBlock (AggState.mk [] [Msg.text "hi"])
        (Block.toolResult "t9" "lost" true)).allMessages
      = (AggState.mk [] [Msg.text "hi"]).allMessages
          ++ [Msg.standaloneResult "t9" (truncateContent "lost") true] ∧
    (processBlock (AggState.mk [] [Msg.text "hi"])
        (Block.toolResult "t9" "lost" true)).allMessages.length
      = (AggState.mk [] [Msg.text "hi"]).allMessages.length + 1 :=
  c7_standalone_result (AggState.mk [] [Msg.text "hi"]) "t9" "lost" true (by decide)

/-- C6: the content a tool-result event records in the log (whether unified
into a tool-use message or standalone) is the original content when it has
at most 5000 characters, and its first 5000 characters with the truncation
marker appended when longer. -/
theorem c6_tool_result_truncation (st : AggState) (x c : String) (e : Bool) :
    ∃ rec : String,
      (∃ m ∈ (processBlock st (Block.toolResult x c e)).allMessages,
        (∃ n i, m = Msg.toolUseFilled x n i rec e) ∨ m = Msg.standaloneResult x rec e) ∧
      (c.length ≤ 5000 → rec = c) ∧
      (5000 < c.length → rec = String.mk (c.data.take 5000) ++ truncMarker) := by
  refine ⟨truncateContent c, ?_, ?_, ?_⟩
  · rcases fillLast_char x (truncateContent c) e st.allMessages with
      ⟨hnone, _⟩ | ⟨l1, n, i, l2, _, _, hsome⟩
    · refine ⟨Msg.standaloneResult x (truncateContent c) e, ?_, Or.inr rfl⟩
      simp [processBlock, hnone]
    · refine ⟨Msg.toolUseFilled x n i (truncateContent c) e, ?_, Or.inl ⟨n, i, rfl⟩⟩
      simp [processBlock, hsome]
  · intro hle
    simp [truncateContent, Nat.not_lt.mpr hle]
  · intro hlt
    simp [truncateContent, hlt]

/-- Witness for C6: short content is recorded unchanged. -/
theorem c6_witness :
    ∃ rec : String,
      (∃ m ∈ (processBlock (AggState.mk [] [])
          (Block.toolResult "t1" "3 matches" false)).allMessages,
        (∃ n i, m = Msg.toolUseFilled "t1" n i rec false) ∨
          m = Msg.standaloneResult "t1" rec false) ∧
      (("3 matches" : String).length ≤ 5000 → rec = "3 matches") ∧
      (5000 < ("3 matches" : String).length →
        rec = String.mk (("3 matches" : String).data.take 5000) ++ truncMarker) :=
  c6_tool_result_truncation (AggState.mk [] []) "t1" "3 matches" false

/-- Text-only streams: the aggregation appends one message per event whose
stripped text is non-empty, holding that stripped text; whitespace-only
events add nothing. -/
theorem consume_text_only (texts : List String) :
    ∀ (st : AggState) (reps : List StatusReport),
      (consumeStream st reps (texts.map fun t => [Block.text t])).1.allMessages
        = st.allMessages
          ++ (texts.filter hasContent).map (fun t => Msg.text (pyStrip t)) := by
  induction texts with
  | nil => intro st reps; simp [consumeStream]
  | cons t rest ih =>
    intro st reps
    by_cases h : pyStrip t = ""
    · have hc : hasContent t = false := by simp [hasContent, h]
      simp only [List.map_cons, consumeStream, processEvent, List.foldl_cons,
        List.foldl_nil, processBlock, if_pos h]
      rw [ih]
      simp [hc]
    · have hc : hasContent t = true := by simp [hasContent, h]
      simp only [List.map_cons, consumeStream, processEvent, List.foldl_cons,
        List.foldl_nil, processBlock, if_neg h]
      rw [ih]
      simp [hc]

/-- C1, counterexample to the claim as stated: two text deltas `"Hel"` and
`"lo "` with no tool events yield two messages (each delta's stripped text),
not one coalesced message whose text is the concatenation `"Hello "`. -/
theorem c1_counterexample :
    (processStream [[Block.text "Hel"], [Block.text "lo "]]).allMessages
        = [Msg.text "Hel", Msg.text "lo"] ∧
    (processStream [[Block.text "Hel"], [Block.text "lo "]]).allMessages.length ≠ 1 ∧
    Msg.text "Hello " ∉ (processStream [[Block.text "Hel"], [Block.text "lo "]]).allMessages := by
  decide

/-- C1, amended: for every sequence of text events with no intervening tool
events, the log contains one message per event with non-whitespace text —
in order, each carrying that event's stripped text — and no message for
whitespace-only events; deltas are never coalesced. -/
theorem c1_one_message_per_delta (texts : List String) :
    (processStream (texts.map fun t => [Block.text t])).allMessages
      = (texts.filter hasContent).map (fun t => Msg.text (pyStrip t)) := by
  have h := consume_text_only texts ⟨[], []⟩ []
  simpa [processStream] using h

/-- Witness for C1 (amended) at a concrete delta sequence. -/
theorem c1_witness :
    (processStream (["Hel", "lo ", "  "].map fun t => [Block.text t])).allMessages
      = (["Hel", "lo ", "  "].filter hasContent).map (fun t => Msg.text (pyStrip t)) :=
  c1_one_message_per_delta ["Hel", "lo ", "  "]

/-- The response-text accumulated by one block. -/
theorem processBlock_responseText (st : AggState) (b : Block) :
    (processBlock st b).responseText = st.responseText ++ (textOf b).toList := by
  cases b with
  | text t =>
    by_cases h : pyStrip t = "" <;> simp [processBlock, textOf, h]
  | toolUse id n i => simp [processBlock, textOf]
  | toolResult x c e =>
    cases hfl : fillLast x (truncateContent c) e st.allMessages <;>
      simp [processBlock, hfl, textOf]

/-- The response-text accumulated by one event. -/
theorem processEvent_responseText (blocks : List Block) :
    ∀ st : AggState,
      (processEvent st blocks).responseText
        = st.responseText ++ blocks.filterMap textOf := by
  induction blocks with
  | nil => intro st; simp [processEvent]
  | cons b rest ih =>
    intro st
    simp only [processEvent, List.foldl_cons] at *
    rw [ih, processBlock_responseText, List.filterMap_cons]
    cases h : textOf b <;> simp [h]

/-- The response-text accumulated by a stream equals its text payloads. -/
theorem consume_responseText (evs : List (List Block)) :
    ∀ (st : AggState) (reps : List StatusReport),
      (consumeStream st reps evs).1.responseText
        = st.responseText ++ textsOf evs := by
  induction evs with
  | nil => intro st reps; simp [consumeStream, textsOf]
  | cons ev rest ih =>
    intro st reps
    simp only [consumeStream]
    rw [ih, processEvent_responseText]
    simp [textsOf]

/-- Every status report sent by the stream-consumption loop has phase
`Running`. -/
theorem consume_reports_running (evs : List (List Block)) :
    ∀ (st : AggState) (reps : List StatusReport),
      (∀ r ∈ reps, r.phase = "Running") →
      ∀ r ∈ (consumeStream st reps evs).2, r.phase = "Running" := by
  induction evs with
  | nil => intro st reps h; simpa [consumeStream] using h
  | cons ev rest ih =>
    intro st reps h
    simp only [consumeStream]
    apply ih
    by_cases he : ev.isEmpty
    · simpa [he] using h
    · simp only [he, if_neg]
      intro r hr
      rcases List.mem_append.mp hr with hr1 | hr2
      · exact h r hr1
      · rcases List.mem_singleton.mp hr2 with rfl
        rfl

/-- The reports `_run_claude_code` sends are exactly the loop's reports. -/
theorem runClaudeCode_fst (s : InferenceStream) :
    (runClaudeCode s).1 = (consumeStream ⟨[], []⟩ [] s.events).2 := by
  unfold runClaudeCode
  cases s.streamError with
  | some e => rfl
  | none =>
    cases h : computeResult (consumeStream ⟨[], []⟩ [] s.events).1.responseText <;>
      simp [h]

/-- C4: every session run sends exactly one terminal status report
(`Completed` or `Failed`) — it is sent even when the inference step throws —
and it is the last report sent: every earlier report is non-terminal, and
nothing follows it. -/
theorem c4_exactly_one_terminal (s : InferenceStream) (now : String) :
    ∃ pre t, (run_agentic_session s now).1 = pre ++ [t] ∧
      (t.phase = "Completed" ∨ t.phase = "Failed") ∧
      ∀ r ∈ pre, r.phase ≠ "Completed" ∧ r.phase ≠ "Failed" := by
  have hrun : ∀ r ∈ (runClaudeCode s).1, r.phase = "Running" := by
    rw [runClaudeCode_fst]
    exact consume_reports_running s.events ⟨[], []⟩ [] (by simp)
  rcases hr : runClaudeCode s with ⟨reps, out⟩
  rw [hr] at hrun
  have hpre : ∀ r ∈ initializingReport :: analyzingReport :: reps,
      r.phase ≠ "Completed" ∧ r.phase ≠ "Failed" := by
    intro r hrm
    rcases List.mem_cons.mp hrm with rfl | hrm2
    · exact ⟨by decide, by decide⟩
    rcases List.mem_cons.mp hrm2 with rfl | hrm3
    · exact ⟨by decide, by decide⟩
    · rw [hrun r hrm3]
      exact ⟨by decide, by decide⟩
  cases out with
  | error e =>
    refine ⟨initializingReport :: analyzingReport :: reps, failedReport e now,
      ?_, Or.inr rfl, hpre⟩
    simp [run_agentic_session, handleStandardSession, hr]
  | ok p =>
    refine ⟨initializingReport :: analyzingReport :: reps, completedReport p.1 p.2 now,
      ?_, Or.inl rfl, hpre⟩
    simp [run_agentic_session, handleStandardSession, hr]

/-- Witness for C4 at a concrete successful stream. -/
theorem c4_witness :
    ∃ pre t, (run_agentic_session ⟨[[Block.text "hi"]], none⟩ "T").1 = pre ++ [t] ∧
      (t.phase = "Completed" ∨ t.phase = "Failed") ∧
      ∀ r ∈ pre, r.phase ≠ "Completed" ∧ r.phase ≠ "Failed" :=
  c4_exactly_one_terminal ⟨[[Block.text "hi"]], none⟩ "T"

/-- C2, counterexample to the claim as stated: when the engine raises
`RuntimeError("rate limited")`, the terminal report's message is
"Agentic analysis failed: rate limited" — no report carries the bare
exception text "rate limited". -/
theorem c2_counterexample :
    (∀ r ∈ (run_agentic_session ⟨[], some "rate limited"⟩ "T").1,
        r.message ≠ "rate limited") ∧
    ((run_agentic_session ⟨[], some "rate limited"⟩ "T").1.map StatusReport.phase)
        = ["Running", "Running", "Failed"] ∧
    ((run_agentic_session ⟨[], some "rate limited"⟩ "T").1.map StatusReport.message).getLast?
        = some "Agentic analysis failed: rate limited" := by
  decide

/-- C2, amended: when the inference run raises an uncaught exception with
message `e`, the last status report has phase `Failed`, its message is the
prefix "Agentic analysis failed: " followed by the exception's string
representation, its completion time is the current UTC time, and the
process exits with the non-zero code 1. -/
theorem c2_failed_report (s : InferenceStream) (now e : String)
    (h : (runClaudeCode s).2 = Except.error e) :
    ∃ pre r, (run_agentic_session s now).1 = pre ++ [r] ∧
      r.phase = "Failed" ∧
      r.message = "Agentic analysis failed: " ++ e ∧
      r.completionTime = some now ∧
      (run_agentic_session s now).2 = some 1 := by
  rcases hr : runClaudeCode s with ⟨reps, out⟩
  rw [hr] at h
  simp only at h
  subst h
  refine ⟨[initializingReport, analyzingReport] ++ reps, failedReport e now,
    ?_, rfl, rfl, rfl, ?_⟩
  · simp [run_agentic_session, handleStandardSession, hr, failedReport]
  · simp [run_agentic_session, handleStandardSession, hr]

/-- Witness for C2 (amended): the engine raises "rate limited". -/
theorem c2_witness :
    ∃ pre r, (run_agentic_session ⟨[], some "rate limited"⟩ "T").1 = pre ++ [r] ∧
      r.phase = "Failed" ∧
      r.message = "Agentic analysis failed: " ++ "rate limited" ∧
      r.completionTime = some "T" ∧
      (run_agentic_session ⟨[], some "rate limited"⟩ "T").2 = some 1 :=
  c2_failed_report ⟨[], some "rate limited"⟩ "T" "rate limited" rfl

/-- Stripping a whitespace-only string yields the empty string. -/
theorem pyStrip_of_ws (t : String) (h : ∀ c ∈ t.data, c.isWhitespace = true) :
    pyStrip t = "" := by
  unfold pyStrip
  rw [List.dropWhile_eq_nil_iff.mpr h]
  rfl

/-- When every entry strips to empty, the reversed scan finds nothing. -/
theorem findLastNonEmpty_none (rt : List String) (h : ∀ t ∈ rt, pyStrip t = "") :
    findLastNonEmpty rt = none := by
  induction rt with
  | nil => rfl
  | cons t rest ih =>
    have h1 := h t (List.mem_cons_self _ _)
    have h2 := ih (fun x hx => h x (List.mem_cons_of_mem _ hx))
    simp [findLastNonEmpty, h2, h1]

/-- A join of whitespace-only strings is whitespace-only. -/
theorem pyJoin_ws (rt : List String)
    (h : ∀ t ∈ rt, ∀ c ∈ t.data, c.isWhitespace = true) :
    ∀ c ∈ (pyJoin rt).data, c.isWhitespace = true := by
  intro c hc
  rcases List.mem_flatten.mp hc with ⟨l, hl, hcl⟩
  rcases List.mem_map.mp hl with ⟨t, ht, rfl⟩
  exact h t ht c hcl

/-- Final-result selection fails with the empty-result error when every text
is whitespace-only (including no texts at all). -/
theorem computeResult_error_of_ws (rt : List String)
    (h : ∀ t ∈ rt, ∀ c ∈ t.data, c.isWhitespace = true) :
    computeResult rt = Except.error "Claude Code SDK returned empty result" := by
  have h1 : findLastNonEmpty rt = none :=
    findLastNonEmpty_none rt (fun t ht => pyStrip_of_ws t (h t ht))
  have h2 : pyStrip (pyJoin rt) = "" := pyStrip_of_ws _ (pyJoin_ws rt h)
  simp [computeResult, h1, h2]

/-- C9: when every streamed text block is empty or whitespace-only
(including a stream with no text blocks), the run raises
`RuntimeError("Claude Code SDK returned empty result")`, so the session
terminates in phase `Failed` with exit code 1 and no `Completed` report is
ever sent. -/
theorem c9_empty_result_fails (s : InferenceStream) (now : String)
    (hne : s.streamError = none)
    (hws : ∀ t ∈ textsOf s.events, ∀ c ∈ t.data, c.isWhitespace = true) :
    (runClaudeCode s).2 = Except.error "Claude Code SDK returned empty result" ∧
    (∃ pre r, (run_agentic_session s now).1 = pre ++ [r] ∧ r.phase = "Failed" ∧
      (run_agentic_session s now).2 = some 1) ∧
    ∀ r ∈ (run_agentic_session s now).1, r.phase ≠ "Completed" := by
  have hrt : (consumeStream ⟨[], []⟩ [] s.events).1.responseText = textsOf s.events := by
    simpa using consume_responseText s.events ⟨[], []⟩ []
  have herr : (runClaudeCode s).2
      = Except.error "Claude Code SDK returned empty result" := by
    simp [runClaudeCode, hne, hrt, computeResult_error_of_ws _ hws]
  have hrun : ∀ r ∈ (runClaudeCode s).1, r.phase = "Running" := by
    rw [runClaudeCode_fst]
    exact consume_reports_running s.events ⟨[], []⟩ [] (by simp)
  refine ⟨herr, ?_, ?_⟩
  all_goals {
    rcases hr : runClaudeCode s with ⟨reps, out⟩
    rw [hr] at herr hrun
    simp only at herr
    subst herr
    first
    | exact ⟨[initializingReport, analyzingReport] ++ reps,
        failedReport "Claude Code SDK returned empty result" now,
        by simp [run_agentic_session, handleStandardSession, hr, failedReport],
        rfl,
        by simp [run_agentic_session, handleStandardSession, hr]⟩
    | { intro r hrm
        have hL : (run_agentic_session s now).1
            = initializingReport :: analyzingReport ::
              (reps ++ [failedReport "Claude Code SDK returned empty result" now]) := by
          simp [run_agentic_session, handleStandardSession, hr, failedReport]
        rw [hL] at hrm
        rcases List.mem_cons.mp hrm with rfl | h2
        · decide
        rcases List.mem_cons.mp h2 with rfl | h3
        · decide
        rcases List.mem_append.mp h3 with h4 | h5
        · rw [hrun r h4]; decide
        · rcases List.mem_singleton.mp h5 with rfl
          simp [failedReport] }
  }

/-- Witness for C9: one whitespace-only text block. -/
theorem c9_witness :
    (runClaudeCode ⟨[[Block.text "  "]], none⟩).2
      = Except.error "Claude Code SDK returned empty result" ∧
    (∃ pre r, (run_agentic_session ⟨[[Block.text "  "]], none⟩ "T").1 = pre ++ [r] ∧
      r.phase = "Failed" ∧
      (run_agentic_session ⟨[[Block.text "  "]], none⟩ "T").2 = some 1) ∧
    ∀ r ∈ (run_agentic_session ⟨[[Block.text "  "]], none⟩ "T").1,
      r.phase ≠ "Completed" :=
  c9_empty_result_fails ⟨[[Block.text "  "]], none⟩ "T" rfl (by decide)

/-- Appending one text to the scanned list: the new text wins when its
stripped form is non-empty, otherwise the scan of the old list decides. -/
theorem findLastNonEmpty_concat (l : List String) (t : String) :
    findLastNonEmpty (l ++ [t])
      = if pyStrip t = "" then findLastNonEmpty l else some (pyStrip t) := by
  induction l with
  | nil =>
    by_cases h : pyStrip t = "" <;> simp [findLastNonEmpty, h]
  | cons a l ih =>
    by_cases h : pyStrip t = "" <;>
      (simp only [List.cons_append, findLastNonEmpty, List.append_eq]
       rw [ih]
       simp [h, findLastNonEmpty])

/-- The reversed scan returns the stripped last entry with content. -/
theorem findLastNonEmpty_eq_filter (rt : List String) :
    findLastNonEmpty rt = ((rt.filter hasContent).getLast?).map pyStrip := by
  induction rt using List.reverseRecOn with
  | nil => rfl
  | append_singleton l t ih =>
    rw [findLastNonEmpty_concat]
    by_cases h : pyStrip t = ""
    · have hc : hasContent t = false := by simp [hasContent, h]
      simp [h, List.filter_append, hc, ih]
    · have hc : hasContent t = true := by simp [hasContent, h]
      simp [h, List.filter_append, hc, List.getLast?_concat]

/-- C10: when at least one streamed text block has non-whitespace content,
the session completes and the `Completed` report's finalOutput is the
stripped text of the last such block alone — not the concatenation of all
streamed text blocks. -/
theorem c10_final_output_is_last_text (s : InferenceStream) (now : String)
    (hne : s.streamError = none)
    (h : ∃ t ∈ textsOf s.events, hasContent t = true) :
    ∃ tl pre r,
      ((textsOf s.events).filter hasContent).getLast? = some tl ∧
      (run_agentic_session s now).1 = pre ++ [r] ∧
      r.phase = "Completed" ∧
      r.finalOutput = some (pyStrip tl) := by
  obtain ⟨t0, ht0, hc0⟩ := h
  have hfne : (textsOf s.events).filter hasContent ≠ [] := by
    intro hnil
    have hmem : t0 ∈ (textsOf s.events).filter hasContent :=
      List.mem_filter.mpr ⟨ht0, hc0⟩
    rw [hnil] at hmem
    cases hmem
  obtain ⟨tl, htl⟩ := Option.isSome_iff_exists.mp (List.getLast?_isSome.mpr hfne)
  have htlmem : tl ∈ (textsOf s.events).filter hasContent := by
    obtain ⟨hne2, rfl⟩ := List.mem_getLast?_eq_getLast (Option.mem_def.mpr htl)
    exact List.getLast_mem hne2
  have htlne : pyStrip tl ≠ "" :=
    (hasContent_iff tl).mp (List.mem_filter.mp htlmem).2
  have hrt : (consumeStream ⟨[], []⟩ [] s.events).1.responseText = textsOf s.events := by
    simpa using consume_responseText s.events ⟨[], []⟩ []
  have hcr : computeResult ((consumeStream ⟨[], []⟩ [] s.events).1.responseText)
      = Except.ok (pyStrip tl) := by
    rw [hrt]
    simp [computeResult, findLastNonEmpty_eq_filter, htl, htlne]
  have hrc : runClaudeCode s = ((consumeStream ⟨[], []⟩ [] s.events).2,
      Except.ok (pyStrip tl, (consumeStream ⟨[], []⟩ [] s.events).1.allMessages)) := by
    simp [runClaudeCode, hne, hcr]
  refine ⟨tl,
    [initializingReport, analyzingReport] ++ (consumeStream ⟨[], []⟩ [] s.events).2,
    completedReport (pyStrip tl) ((consumeStream ⟨[], []⟩ [] s.events).1.allMessages) now,
    htl, ?_, rfl, rfl⟩
  simp [run_agentic_session, handleStandardSession, hrc]

/-- Witness for C10: two non-whitespace text blocks, finalOutput is the
last one's stripped text. -/
theorem c10_witness :
    ∃ tl pre r,
      ((textsOf [[Block.text "Hel"], [Block.text "lo "]]).filter hasContent).getLast?
        = some tl ∧
      (run_agentic_session ⟨[[Block.text "Hel"], [Block.text "lo "]], none⟩ "T").1
        = pre ++ [r] ∧
      r.phase = "Completed" ∧
      r.finalOutput = some (pyStrip tl) :=
  c10_final_output_is_last_text ⟨[[Block.text "Hel"], [Block.text "lo "]], none⟩ "T"
    rfl ⟨"Hel", by decide, by decide⟩

/-- Each file's push outcome depends only on that file's own writes. -/
theorem pushFiles_eq_map (utf8W b64W : String → Bool) (files : List LocalFile) :
    pushFiles utf8W b64W files
      = files.map (fun f => (f.path, pushFile utf8W b64W f)) := by
  induction files with
  | nil => rfl
  | cons f rest ih => simp [pushFiles, ih]

/-- C5: in a workspace push over N files where file K's writes fail with a
transport error, every later file is still attempted and a later file whose
own write succeeds is pushed (no short-circuit abort); when the remote
workspace path is unset the push is a no-op. -/
theorem c5_push_no_short_circuit (remote : String) (utf8W b64W : String → Bool)
    (files : List LocalFile) (k j : Nat) (hk : k < files.length)
    (hj : j < files.length) (hkj : k < j)
    (hfail : pushFile utf8W b64W (files.get ⟨k, hk⟩) = false)
    (hok : pushFile utf8W b64W (files.get ⟨j, hj⟩) = true) :
    (pushWorkspace (some remote) utf8W b64W files).length = files.length ∧
    (pushWorkspace (some remote) utf8W b64W files)[j]?
      = some ((files.get ⟨j, hj⟩).path, true) ∧
    pushWorkspace none utf8W b64W files = [] := by
  refine ⟨?_, ?_, rfl⟩
  · simp [pushWorkspace, pushFiles_eq_map]
  · have hok2 : pushFile utf8W b64W files[j] = true := hok
    simp only [pushWorkspace, pushFiles_eq_map, List.getElem?_map,
      List.getElem?_eq_getElem hj, List.get_eq_getElem]
    simp [hok2]

/-- Witness for C5: file 0 fails on both write paths, file 1 succeeds and
is still pushed. -/
theorem c5_witness :
    (pushWorkspace (some "w") (fun p => p == "b") (fun _ => false)
        [⟨"a", true⟩, ⟨"b", true⟩]).length
      = ([⟨"a", true⟩, ⟨"b", true⟩] : List LocalFile).length ∧
    (pushWorkspace (some "w") (fun p => p == "b") (fun _ => false)
        [⟨"a", true⟩, ⟨"b", true⟩])[1]?
      = some ((([⟨"a", true⟩, ⟨"b", true⟩] : List LocalFile).get ⟨1, by decide⟩).path,
          true) ∧
    pushWorkspace none (fun p => p == "b") (fun _ => false)
        [⟨"a", true⟩, ⟨"b", true⟩] = [] :=
  c5_push_no_short_circuit "w" (fun p => p == "b") (fun _ => false)
    [⟨"a", true⟩, ⟨"b", true⟩] 0 1 (by decide) (by decide) (by decide)
    (by decide) (by decide)

/-- C8: a status-report call always returns normally with a log entry —
a raised transport exception or timeout is caught and logged as an error,
and a non-200 response is logged as an error; nothing propagates past the
call's boundary. -/
theorem c8_status_failures_absorbed (o : HttpOutcome) :
    ∃ l : LogEntry, update_session_status o = l ∧
      ((∃ m, updateStatusTry o = Except.error m) → l.isError = true) ∧
      ((∃ code body, o = HttpOutcome.response code body ∧ code ≠ 200) →
        l.isError = true) := by
  cases o with
  | raised m =>
    refine ⟨⟨true, "Error updating session status: " ++ m⟩, rfl, fun _ => rfl, ?_⟩
    rintro ⟨c, b, h, _⟩
    cases h
  | response code body =>
    by_cases h : code = 200
    · subst h
      refine ⟨⟨false, "Session status updated successfully"⟩, ?_, ?_, ?_⟩
      · simp [update_session_status, updateStatusTry]
      · rintro ⟨m, hm⟩
        simp [updateStatusTry] at hm
      · rintro ⟨c, b, heq, hne⟩
        injection heq with h1 h2
        exact absurd h1.symm hne
    · refine ⟨⟨true, "Failed to update session status: "
          ++ toString code ++ " - " ++ body⟩, ?_, fun _ => rfl, fun _ => rfl⟩
      simp [update_session_status, updateStatusTry, h]

/-- Witness for C8: a 503 response is absorbed and logged. -/
theorem c8_witness :
    ∃ l : LogEntry,
      update_session_status (HttpOutcome.response 503 "Service Unavailable") = l ∧
      ((∃ m, updateStatusTry (HttpOutcome.response 503 "Service Unavailable")
          = Except.error m) → l.isError = true) ∧
      ((∃ code body, HttpOutcome.response 503 "Service Unavailable"
          = HttpOutcome.response code body ∧ code ≠ 200) → l.isError = true) :=
  c8_status_failures_absorbed (HttpOutcome.response 503 "Service Unavailable")
